import Mathlib

/-!
Shallow embedding of `mongocxx::database` (src/src/mongocxx/database.hpp).

The repository snapshot contains only the header: method declarations, their
documentation, and the single inline body of `operator[]`.  The bodies in
`database.cpp` are absent, so every operation except `operator[]` is modelled
from the specification (and the header's own doc comments), as marked on each
definition.  Handles are value states: a `database` is either empty
(default-constructed or moved-from, `_impl = none`) or valid (holding the
driver-internal state `impl`).
-/

namespace MongoCxx

/-- Modelled from the spec: `read_preference` is an opaque configuration value
type governing how reads are routed; only its value identity matters here. -/
structure read_preference where
  mode : Nat
deriving DecidableEq, Repr

/-- Modelled from the spec: `write_concern` is an opaque configuration value
type governing how writes are acknowledged. -/
structure write_concern where
  w : Nat
deriving DecidableEq, Repr

/-- Modelled from the spec: the owning `client` supplies default settings
(read preference, write concern) copied into each database handle at its
construction. -/
structure client where
  rp : read_preference
  wc : write_concern
deriving DecidableEq, Repr

/-- Modelled from the spec: the driver-internal state owned by a valid
database handle — the database name and the handle's local settings
snapshot.  The body of `class database::impl` is not in the repository
snapshot. -/
structure impl where
  dbName : String
  rp : read_preference
  wc : write_concern
deriving DecidableEq, Repr

/-- The `database` handle: `_impl` mirrors the header's
`std::unique_ptr<impl> _impl` — `none` is the empty (default-constructed or
moved-from) state. -/
structure database where
  _impl : Option impl
deriving DecidableEq, Repr

/-- Modelled from the spec: a `collection` handle minted by a database handle,
seeded with the database's settings snapshot at its construction. -/
structure collection where
  colName : String
  rp : read_preference
  wc : write_concern
deriving DecidableEq, Repr

/-- Modelled from the spec: `database() noexcept` default-constructs an empty
handle, equivalent to the moved-from state. -/
def database.defaultConstruct : database := ⟨none⟩

/-- Modelled from the spec: `explicit operator bool()` — true iff the handle
was not default constructed or moved from. -/
def database.isValid (d : database) : Bool := d._impl.isSome

/-- Modelled from the spec: the private constructor
`database(const client&, stdx::string_view)` stores the name and seeds the
settings by copying the client's current defaults at that instant. -/
def database.mkFromClient (c : client) (n : String) : database :=
  ⟨some ⟨n, c.rp, c.wc⟩⟩

/-- Modelled from the spec: `name()` returns the database's name; on a valid
handle it never fails and performs no network access. -/
def database.name (d : database) : Option String :=
  d._impl.map impl.dbName

/-- Modelled from the spec: the setter `read_preference(rp)` replaces the
handle's local snapshot of the read preference. -/
def impl.setRP (i : impl) (rp : read_preference) : impl :=
  { i with rp := rp }

/-- Modelled from the spec: the setter `write_concern(wc)` replaces the
handle's local snapshot of the write concern. -/
def impl.setWC (i : impl) (wc : write_concern) : impl :=
  { i with wc := wc }

/-- Lift of `impl.setRP` to the handle (no-op on an empty handle, whose use is
a precondition violation). -/
def database.setRP (d : database) (rp : read_preference) : database :=
  ⟨d._impl.map (fun i => i.setRP rp)⟩

/-- Lift of `impl.setWC` to the handle. -/
def database.setWC (d : database) (wc : write_concern) : database :=
  ⟨d._impl.map (fun i => i.setWC wc)⟩

/-- A single settings mutation on a database handle. -/
inductive SettingMutation where
  | putRP (rp : read_preference)
  | putWC (wc : write_concern)
deriving DecidableEq, Repr

/-- Applies a sequence of settings mutations to a handle, left to right. -/
def database.applySettings : List SettingMutation → database → database
  | [], d => d
  | .putRP r :: ms, d => database.applySettings ms (d.setRP r)
  | .putWC w :: ms, d => database.applySettings ms (d.setWC w)

/-- Modelled from the spec: `collection(name)` constructs a new collection
handle bound to `name`, seeded with this handle's current read preference and
write concern — a copy, not a live reference.  Returns `none` only for the
empty handle (a precondition violation in the source). -/
def database.collection (d : database) (n : String) : Option collection :=
  d._impl.map (fun i => ⟨n, i.rp, i.wc⟩)

/-- Translated from the header's inline body of `operator[]`:
`return collection(name);`. -/
def database.opIndex (d : database) (n : String) : Option MongoCxx.collection :=
  d.collection n

/-- The world visible to one database handle: its owning client and the
handle itself.  Used to state frame properties of the setters. -/
structure World where
  cl : client
  db : database
deriving DecidableEq, Repr

/-- The setter `read_preference(rp)` acting in the world of the handle. -/
def World.setRP (w : World) (rp : read_preference) : World :=
  { w with db := w.db.setRP rp }

/-- The setter `write_concern(wc)` acting in the world of the handle. -/
def World.setWC (w : World) (wc : write_concern) : World :=
  { w with db := w.db.setWC wc }

/-- A store of database handle slots, used to state move semantics between two
named handles (`a`, `b`) without aliasing confusion: each slot holds one
handle value. -/
def Heap : Type := Nat → database

/-- Writes one slot of the store. -/
def Heap.update (h : Heap) (i : Nat) (d : database) : Heap :=
  fun j => if j = i then d else h j

/-- Modelled from the spec: move assignment `target = std::move(source)` for
the owned `std::unique_ptr<impl>` — the target resets to what the source
releases: first the source's pointer is taken and the source nulled, then the
target is set to the taken pointer.  This order makes self-move leave the
handle unchanged, as the spec requires.  Never fails (`noexcept`). -/
def moveAssign (h : Heap) (tgt src : Nat) : Heap :=
  let p := (h src)._impl
  let h1 := h.update src ⟨none⟩
  h1.update tgt ⟨p⟩

/-- Modelled from the spec: move construction `database b(std::move(a))` — the
fresh handle acquires the source's state; the source becomes empty.  Returns
the new handle's value and the updated store.  Never fails (`noexcept`). -/
def moveConstruct (h : Heap) (src : Nat) : database × Heap :=
  (h src, h.update src ⟨none⟩)

/-- Modelled from the spec: the deprecated `implementation()` accessor returns
a pointer to the handle's driver-internal state, or null (`none`) when that
state is not available; it reads the handle and never fails. -/
def database.implementation (d : database) : Option impl :=
  d._impl

/-- A structured BSON document value, opaque at this layer. -/
structure bson_doc where
  raw : String
deriving DecidableEq, Repr

/-- The single operation-error category of this layer: a pass-through of
whatever the external driver reports. -/
structure operation_error where
  msg : String
deriving DecidableEq, Repr

/-- Modelled from the spec: `command(doc)` runs a command against this
database by forwarding it to the external driver (given here as an explicit
collaborator function) and propagating its response document, or its
operation error, synchronously to the caller. -/
def database.command (_d : database)
    (driver : bson_doc → Except operation_error bson_doc)
    (cmd : bson_doc) : Except operation_error bson_doc :=
  driver cmd

/-- Modelled from the spec: the server-side catalog of one database — the
list of its collection names, the state `list_collections`,
`has_collection`, `create_collection` and `drop` consult or change. -/
structure ServerDb where
  collections : List String
deriving DecidableEq, Repr

/-- A cursor: a finite, forward-only, single-pass sequence over the
collection descriptors the server returned. -/
structure cursor where
  remaining : List String
deriving DecidableEq, Repr

/-- One forward read of a cursor: the next element and the advanced cursor,
or `none` (and the same exhausted cursor) when the sequence is consumed. -/
def cursor.next : cursor → Option String × cursor
  | ⟨[]⟩ => (none, ⟨[]⟩)
  | ⟨x :: xs⟩ => (some x, ⟨xs⟩)

/-- Reads forward through a sequence to exhaustion (recursion measure of
`cursor.drain`). -/
def cursor.drainList : List String → List String × cursor
  | [] => ([], ⟨[]⟩)
  | x :: xs =>
    let r := cursor.drainList xs
    (x :: r.1, r.2)

/-- Reads a cursor to exhaustion by repeated forward reads; returns the
elements in order and the exhausted cursor. -/
def cursor.drain (c : cursor) : List String × cursor :=
  cursor.drainList c.remaining

/-- The filter that matches every collection descriptor (an empty or absent
filter document). -/
def emptyFilter : String → Bool := fun _ => true

/-- The filter whose query expression matches on the collection name. -/
def nameFilter (n : String) : String → Bool := fun m => n == m

/-- Modelled from the spec: `list_collections(filter)` runs `listCollections`
against the server catalog and returns a cursor over the descriptors the
filter matches. -/
def list_collections (s : ServerDb) (filter : String → Bool) : cursor :=
  ⟨s.collections.filter filter⟩

/-- Modelled from the spec: `has_collection(name)` queries the collection
catalog with a filter matching on `name` — no local cache — and reports
whether anything matched. -/
def has_collection (s : ServerDb) (n : String) : Bool :=
  !(list_collections s (nameFilter n)).remaining.isEmpty

/-- Modelled from the spec: `create_collection(name)` issues a server-side
`createCollection` command; the server rejects it with an operation error
when the name already exists, and otherwise adds the collection to the
catalog. -/
def ServerDb.create_collection (s : ServerDb) (n : String) :
    Except operation_error ServerDb :=
  if n ∈ s.collections then .error ⟨"collection already exists"⟩
  else .ok ⟨n :: s.collections⟩

/-- Modelled from the spec: `drop()` irreversibly deletes the database and
all its collections server-side. -/
def ServerDb.drop (_s : ServerDb) : ServerDb :=
  ⟨[]⟩

/-! Helper lemmas, shared across claims. -/

/-- Setting the read preference leaves the name unchanged. -/
theorem database.name_setRP (d : database) (rp : read_preference) :
    (d.setRP rp).name = d.name := by
  cases d with
  | mk o => cases o <;> rfl

/-- Setting the write concern leaves the name unchanged. -/
theorem database.name_setWC (d : database) (wc : write_concern) :
    (d.setWC wc).name = d.name := by
  cases d with
  | mk o => cases o <;> rfl

/-- A sequence of settings mutations leaves the name unchanged. -/
theorem database.name_applySettings (ms : List SettingMutation) (d : database) :
    (database.applySettings ms d).name = d.name := by
  induction ms generalizing d with
  | nil => rfl
  | cons m ms ih =>
    cases m with
    | putRP r => rw [database.applySettings, ih, database.name_setRP]
    | putWC w => rw [database.applySettings, ih, database.name_setWC]

/-- Draining a cursor yields exactly its remaining elements and ends in the
exhausted cursor. -/
theorem cursor.drain_eq (l : List String) :
    cursor.drain ⟨l⟩ = (l, (⟨[]⟩ : cursor)) := by
  unfold cursor.drain
  induction l with
  | nil => rfl
  | cons x xs ih => simp [cursor.drainList, ih]

/-- Membership in the catalog is exactly a nonempty name-filtered query. -/
theorem has_collection_eq_mem (s : ServerDb) (n : String) :
    has_collection s n = decide (n ∈ s.collections) := by
  unfold has_collection list_collections nameFilter
  induction s.collections with
  | nil => simp
  | cons x xs ih =>
    by_cases hx : n = x
    · subst hx; simp
    · simp [List.filter_cons, hx, ih, List.mem_cons]

/-! Claim theorems. -/

/-- C1: settings copy-on-derive isolation — on a valid handle, a collection
handle minted before a settings mutation carries the snapshot taken at its
construction; minting after `setRP`/`setWC` sees exactly the one new value;
and the owning client's defaults are never modified. -/
theorem settings_copy_on_derive (w : World) (i : impl)
    (h : w.db._impl = some i) (rp' : read_preference) (wc' : write_concern)
    (n : String) :
    w.db.collection n = some ⟨n, i.rp, i.wc⟩
    ∧ (w.setRP rp').db.collection n = some ⟨n, rp', i.wc⟩
    ∧ (w.setWC wc').db.collection n = some ⟨n, i.rp, wc'⟩
    ∧ (w.setRP rp').cl = w.cl
    ∧ (w.setWC wc').cl = w.cl := by
  refine ⟨?_, ?_, ?_, rfl, rfl⟩ <;>
    simp [database.collection, World.setRP, World.setWC, database.setRP,
      database.setWC, impl.setRP, impl.setWC, h]

/-- Witness for C1 at a concrete world. -/
theorem settings_copy_on_derive_witness :
    (World.mk ⟨⟨0⟩, ⟨1⟩⟩ ⟨some ⟨"db", ⟨0⟩, ⟨1⟩⟩⟩).db._impl
      = some ⟨"db", ⟨0⟩, ⟨1⟩⟩
    ∧ ((World.mk ⟨⟨0⟩, ⟨1⟩⟩ ⟨some ⟨"db", ⟨0⟩, ⟨1⟩⟩⟩).db.collection "c"
        = some ⟨"c", ⟨0⟩, ⟨1⟩⟩
      ∧ ((World.mk ⟨⟨0⟩, ⟨1⟩⟩ ⟨some ⟨"db", ⟨0⟩, ⟨1⟩⟩⟩).setRP ⟨2⟩).db.collection "c"
        = some ⟨"c", ⟨2⟩, ⟨1⟩⟩
      ∧ ((World.mk ⟨⟨0⟩, ⟨1⟩⟩ ⟨some ⟨"db", ⟨0⟩, ⟨1⟩⟩⟩).setWC ⟨3⟩).db.collection "c"
        = some ⟨"c", ⟨0⟩, ⟨3⟩⟩
      ∧ ((World.mk ⟨⟨0⟩, ⟨1⟩⟩ ⟨some ⟨"db", ⟨0⟩, ⟨1⟩⟩⟩).setRP ⟨2⟩).cl
        = (World.mk ⟨⟨0⟩, ⟨1⟩⟩ ⟨some ⟨"db", ⟨0⟩, ⟨1⟩⟩⟩).cl
      ∧ ((World.mk ⟨⟨0⟩, ⟨1⟩⟩ ⟨some ⟨"db", ⟨0⟩, ⟨1⟩⟩⟩).setWC ⟨3⟩).cl
        = (World.mk ⟨⟨0⟩, ⟨1⟩⟩ ⟨some ⟨"db", ⟨0⟩, ⟨1⟩⟩⟩).cl) :=
  ⟨rfl, settings_copy_on_derive (World.mk ⟨⟨0⟩, ⟨1⟩⟩ ⟨some ⟨"db", ⟨0⟩, ⟨1⟩⟩⟩)
    ⟨"db", ⟨0⟩, ⟨1⟩⟩ rfl ⟨2⟩ ⟨3⟩ "c"⟩

/-- C2: move semantics between two distinct handle slots — after
`b = std::move(a)` the target holds the source's prior state (resource and
name), the source is empty with validity false, all other slots are
untouched, and move construction behaves the same way.  Both operations are
total functions of the prior state (`noexcept`). -/
theorem move_transfers (h : Heap) (tgt src : Nat) (hne : tgt ≠ src) :
    moveAssign h tgt src tgt = h src
    ∧ moveAssign h tgt src src = ⟨none⟩
    ∧ (moveAssign h tgt src src).isValid = false
    ∧ (∀ j, j ≠ tgt → j ≠ src → moveAssign h tgt src j = h j)
    ∧ (moveConstruct h src).1 = h src
    ∧ (moveConstruct h src).2 src = ⟨none⟩
    ∧ ((moveConstruct h src).2 src).isValid = false := by
  refine ⟨?_, ?_, ?_, ?_, rfl, ?_, ?_⟩
  · simp [moveAssign, Heap.update]
  · simp [moveAssign, Heap.update, Ne.symm hne]
  · simp [moveAssign, Heap.update, Ne.symm hne, database.isValid]
  · intro j hjt hjs
    simp [moveAssign, Heap.update, hjt, hjs]
  · simp [moveConstruct, Heap.update]
  · simp [moveConstruct, Heap.update, database.isValid]

/-- Sample store of handles for the move-semantics witnesses: slot 1 holds a
valid handle, every other slot an empty one. -/
def sampleHeap : Heap :=
  fun j => if j = 1 then ⟨some ⟨"adb", ⟨0⟩, ⟨0⟩⟩⟩ else ⟨none⟩

/-- Witness for C2 at a concrete store and distinct slots 0 and 1. -/
theorem move_transfers_witness :
    (0 : Nat) ≠ 1
    ∧ (moveAssign sampleHeap 0 1 0 = sampleHeap 1
      ∧ moveAssign sampleHeap 0 1 1 = ⟨none⟩
      ∧ (moveAssign sampleHeap 0 1 1).isValid = false
      ∧ (∀ j, j ≠ 0 → j ≠ 1 → moveAssign sampleHeap 0 1 j = sampleHeap j)
      ∧ (moveConstruct sampleHeap 1).1 = sampleHeap 1
      ∧ (moveConstruct sampleHeap 1).2 1 = ⟨none⟩
      ∧ ((moveConstruct sampleHeap 1).2 1).isValid = false) :=
  ⟨by decide, move_transfers sampleHeap 0 1 (by decide)⟩

/-- C3: for a handle constructed from a client with name `n`, any sequence of
read-preference/write-concern mutations leaves `name()` returning exactly
`n`; the accessor is a total function of the handle state (no failure, no
network access). -/
theorem name_stable_under_settings (c : client) (n : String)
    (ms : List SettingMutation) :
    (database.applySettings ms (database.mkFromClient c n)).name = some n := by
  rw [database.name_applySettings]
  rfl

/-- C4: `has_collection` answers membership in the `list_collections` result
with the empty filter — it queries the catalog, and a merely absent name is
the valid result `false`, not an error. -/
theorem has_collection_matches_catalog (s : ServerDb) (n : String) :
    (has_collection s n = true ↔ n ∈ (list_collections s emptyFilter).remaining)
    ∧ (n ∉ (list_collections s emptyFilter).remaining →
        has_collection s n = false) := by
  have hall : (list_collections s emptyFilter).remaining = s.collections := by
    simp [list_collections, emptyFilter]
  rw [hall]
  constructor
  · rw [has_collection_eq_mem]
    exact decide_eq_true_iff
  · intro hn
    rw [has_collection_eq_mem]
    exact decide_eq_false hn

/-- Witness for C4 at a concrete catalog: "b" is present, "z" absent. -/
theorem has_collection_matches_catalog_witness :
    ((has_collection ⟨["a", "b"]⟩ "z" = true
        ↔ "z" ∈ (list_collections ⟨["a", "b"]⟩ emptyFilter).remaining)
      ∧ ("z" ∉ (list_collections ⟨["a", "b"]⟩ emptyFilter).remaining →
          has_collection ⟨["a", "b"]⟩ "z" = false))
    ∧ has_collection ⟨["a", "b"]⟩ "b" = true :=
  ⟨has_collection_matches_catalog ⟨["a", "b"]⟩ "z", by decide⟩

/-- C5: the index operator is exactly `collection(name)` (the header's inline
body), and on a valid handle both return a fresh collection handle bound to
`n` and seeded with the current read preference and write concern; the call
is a total function of the handle state (no network, no failure). -/
theorem opIndex_eq_collection (d : database) (n : String) (i : impl)
    (h : d._impl = some i) :
    d.opIndex n = d.collection n
    ∧ d.opIndex n = some ⟨n, i.rp, i.wc⟩
    ∧ d.collection n = some ⟨n, i.rp, i.wc⟩ := by
  refine ⟨rfl, ?_, ?_⟩ <;> simp [database.opIndex, database.collection, h]

/-- Witness for C5 at a concrete valid handle. -/
theorem opIndex_eq_collection_witness :
    (database.mk (some ⟨"db", ⟨4⟩, ⟨5⟩⟩))._impl = some ⟨"db", ⟨4⟩, ⟨5⟩⟩
    ∧ ((database.mk (some ⟨"db", ⟨4⟩, ⟨5⟩⟩)).opIndex "c"
        = (database.mk (some ⟨"db", ⟨4⟩, ⟨5⟩⟩)).collection "c"
      ∧ (database.mk (some ⟨"db", ⟨4⟩, ⟨5⟩⟩)).opIndex "c"
        = some ⟨"c", ⟨4⟩, ⟨5⟩⟩
      ∧ (database.mk (some ⟨"db", ⟨4⟩, ⟨5⟩⟩)).collection "c"
        = some ⟨"c", ⟨4⟩, ⟨5⟩⟩) :=
  ⟨rfl, opIndex_eq_collection (database.mk (some ⟨"db", ⟨4⟩, ⟨5⟩⟩)) "c"
    ⟨"db", ⟨4⟩, ⟨5⟩⟩ rfl⟩

/-- C6: `command` returns the driver's response document exactly when the
underlying execution succeeds, and surfaces an operation error exactly when
it fails, synchronously at the point of the call. -/
theorem command_propagates (d : database)
    (driver : bson_doc → Except operation_error bson_doc) (cmd : bson_doc) :
    (∀ r, d.command driver cmd = .ok r ↔ driver cmd = .ok r)
    ∧ (∀ e, d.command driver cmd = .error e ↔ driver cmd = .error e) :=
  ⟨fun _ => Iff.rfl, fun _ => Iff.rfl⟩

/-- C7: when `create_collection n` succeeds, `has_collection n` is true, and
after `drop()` it is false. -/
theorem create_drop_roundtrip (s s' : ServerDb) (n : String)
    (h : s.create_collection n = .ok s') :
    has_collection s' n = true ∧ has_collection s'.drop n = false := by
  unfold ServerDb.create_collection at h
  by_cases hmem : n ∈ s.collections
  · simp [hmem] at h
  · simp only [if_neg hmem, Except.ok.injEq] at h
    subst h
    constructor
    · rw [has_collection_eq_mem]
      simp [List.mem_cons]
    · rw [has_collection_eq_mem]
      simp [ServerDb.drop]

/-- Witness for C7: creating "foo" in an empty database. -/
theorem create_drop_roundtrip_witness :
    (ServerDb.mk []).create_collection "foo" = .ok ⟨["foo"]⟩
    ∧ (has_collection ⟨["foo"]⟩ "foo" = true
      ∧ has_collection (ServerDb.drop ⟨["foo"]⟩) "foo" = false) :=
  ⟨rfl, create_drop_roundtrip ⟨[]⟩ ⟨["foo"]⟩ "foo" rfl⟩

/-- C8: the empty-filter `list_collections` cursor has at least as many
elements as any filtered one; every cursor is a finite single-pass sequence:
draining yields exactly its elements, and further reads on the drained
cursor yield nothing and leave it exhausted. -/
theorem list_collections_cursor_laws (s : ServerDb) (f : String → Bool) :
    (list_collections s f).remaining.length
      ≤ (list_collections s emptyFilter).remaining.length
    ∧ (list_collections s f).drain
      = ((list_collections s f).remaining, (⟨[]⟩ : cursor))
    ∧ ((list_collections s f).drain.2).next
      = (none, (list_collections s f).drain.2) := by
  have hall : (list_collections s emptyFilter).remaining = s.collections := by
    simp [list_collections, emptyFilter]
  refine ⟨?_, ?_, ?_⟩
  · rw [hall]
    exact List.length_filter_le f s.collections
  · exact cursor.drain_eq _
  · rw [cursor.drain_eq]
    rfl

/-- C9: self-move leaves every slot of the store — and in particular the
moved handle's validity, resource and name — unchanged. -/
theorem self_move_id (h : Heap) (t j : Nat) :
    moveAssign h t t j = h j
    ∧ (moveAssign h t t j).isValid = (h j).isValid
    ∧ (moveAssign h t t j).name = (h j).name := by
  have hbase : moveAssign h t t j = h j := by
    unfold moveAssign Heap.update
    by_cases hj : j = t
    · subst hj
      simp
    · simp [hj]
  exact ⟨hbase, by rw [hbase], by rw [hbase]⟩

/-- C10: the deprecated `implementation()` accessor is a pure read of the
handle's driver-internal state: it is null exactly on an invalid (empty)
handle, returns the stored state of a client-constructed handle, and the
handle itself is a value unchanged by the read. -/
theorem implementation_accessor (d : database) :
    database.implementation d = d._impl
    ∧ ((database.implementation d).isNone ↔ d.isValid = false)
    ∧ (∀ c n, database.implementation (database.mkFromClient c n)
        = some ⟨n, c.rp, c.wc⟩)
    ∧ database.implementation ⟨none⟩ = none := by
  refine ⟨rfl, ?_, fun c n => rfl, rfl⟩
  cases d with
  | mk o => cases o <;> simp [database.implementation, database.isValid]

end MongoCxx
